import Mathlib

/-!
Verification development for the Easy_ACC repository core.

Shallow embedding conventions:
* Timestamps are integers counted in minutes (one hour = 60, one week = 10080).
* Numeric sample values are rationals (`ℚ`); a pandas `NaN` cell is `Option.none`.
* pandas DataFrames keyed by actor name are association lists `List (String × _)`;
  `dict.get(k, d)` is the `getD` helper below.

Embedded components and their sources:
* `computeMetricsStep` — the per-timestep body of `compute_metrics`
  (src/pages/bilan/energie.py, lines 475-590).  The Python loop carries no state
  across timesteps other than running totals, so one timestep is modelled.
* `impute_by_week_shift` — src/services/curve_processing/imputer.py.
* `resample_curve` / `detect_timestep` — src/services/curve_processing/resampler.py
  and utils.py (`pd.infer_freq` is modelled for regularly spaced indexes).
* `inferUnit` and the unit normalisation — src/services/curve_processing/io.py.
* `build_dataframes` and its helpers — src/services/data_aggregation.py.
-/

namespace EasyACC

/-- Model of `d.get(k, default)` on a string-keyed dict modelled as an association list. -/
def getD (l : List (String × ℚ)) (k : String) (d : ℚ) : ℚ :=
  match l with
  | [] => d
  | (k', v) :: rest => if k' = k then v else getD rest k d

/-- The self-consumption / surplus / complement split applied per consumer in
`compute_metrics` (energie.py lines 508-515 and the identical later copies):
given the allocated production and the real demand, returns
(self-consumption, surplus contribution, complement contribution). -/
def splitAlloc (allocated demand : ℚ) : ℚ × ℚ × ℚ :=
  if demand ≤ allocated then (demand, allocated - demand, 0)
  else (allocated, 0, demand - allocated)

/-- Run the `splitAlloc` rule over every consumer column `(name, demand)`,
with `f name demand` the allocated production for that consumer.  Returns
(per-consumer self-consumption, per-consumer complement, total surplus),
mirroring the `for c in df_conso.columns` loops of energie.py. -/
def allocRows (f : String → ℚ → ℚ) : List (String × ℚ) → List (String × ℚ) × List (String × ℚ) × ℚ
  | [] => ([], [], 0)
  | (c, d) :: rest =>
    let (s, su, comp) := splitAlloc (f c d) d
    let (aps, fcs, surp) := allocRows f rest
    ((c, s) :: aps, (c, comp) :: fcs, su + surp)

/-- Sub-policy of one priority group in the DynamicSimple policy:
`consumer_group_keys.get(pr, {}).get("mode", "default")` together with the
group-scoped percentage map. -/
inductive GroupMode where
  | staticKey (percentages : List (String × ℚ))
  | defaultKey
deriving Repr

/-- Lookup of a group key, defaulting to the "default" sub-policy
(`consumer_group_keys.get(pr, {})`). -/
def getGroupMode (gks : List (Int × GroupMode)) (pr : Int) : GroupMode :=
  match gks with
  | [] => GroupMode.defaultKey
  | (k, m) :: rest => if k = pr then m else getGroupMode rest pr

/-- Members of one priority group, in the insertion order of
`consumer_priorities` (energie.py lines 539-541). -/
def membersOf (priorities : List (String × Int)) (pr : Int) : List String :=
  (priorities.filter (fun p => decide (p.2 = pr))).map Prod.fst

/-- Model of `sorted(groups.keys())` (energie.py line 545): the distinct priorities in
ascending order. -/
def sortedKeys (priorities : List (String × Int)) : List Int :=
  ((priorities.map Prod.snd).dedup).insertionSort (· ≤ ·)

/-- Static sub-policy allocation inside one DynamicSimple group
(energie.py lines 554-566): each member gets
`prod_for_group * (group_percentages.get(c, 0) / 100)` and the usual split.
Returns (self-consumption rows, complement rows, surplus of the group). -/
def allocGroupStatic (conso pcts : List (String × ℚ)) (profForGroup : ℚ) :
    List String → List (String × ℚ) × List (String × ℚ) × ℚ
  | [] => ([], [], 0)
  | c :: rest =>
    let allocated := profForGroup * (getD pcts c 0 / 100)
    let (s, su, comp) := splitAlloc allocated (getD conso c 0)
    let (aps, fcs, surp) := allocGroupStatic conso pcts profForGroup rest
    ((c, s) :: aps, (c, comp) :: fcs, su + surp)

/-- Default (proportional) sub-policy allocation inside one DynamicSimple group
(energie.py lines 567-574): each member's self-consumption is
`min(prod_for_group * (demand / group_conso), demand)`; no surplus and no
complement are recorded for the group. -/
def allocGroupDefaut (conso : List (String × ℚ)) (profForGroup groupConso : ℚ)
    (members : List String) : List (String × ℚ) :=
  members.map (fun c => (c, min (profForGroup * (getD conso c 0 / groupConso)) (getD conso c 0)))

/-- The priority-group loop of the DynamicSimple policy
(energie.py lines 545-576): fold over the sorted priorities carrying
`production_restante`; `break` once it is ≤ 0.  Returns
(self-consumption rows, complement rows, accumulated surplus,
final `production_restante`). -/
def processGroups (conso : List (String × ℚ)) (priorities : List (String × Int))
    (gks : List (Int × GroupMode)) :
    List Int → ℚ → List (String × ℚ) × List (String × ℚ) × ℚ × ℚ
  | [], rem => ([], [], 0, rem)
  | pr :: rest, rem =>
    let members := membersOf priorities pr
    let groupConso := (members.map (fun c => getD conso c 0)).sum
    if rem ≤ 0 then ([], [], 0, rem)
    else
      let profForGroup := min rem groupConso
      match getGroupMode gks pr with
      | GroupMode.staticKey pcts =>
        let (ap, fc, su) := allocGroupStatic conso pcts profForGroup members
        let (ap2, fc2, su2, remF) := processGroups conso priorities gks rest (rem - profForGroup)
        (ap ++ ap2, fc ++ fc2, su + su2, remF)
      | GroupMode.defaultKey =>
        let ap := if 0 < groupConso then allocGroupDefaut conso profForGroup groupConso members else []
        let (ap2, fc2, su2, remF) := processGroups conso priorities gks rest (rem - profForGroup)
        (ap ++ ap2, fc2, su2, remF)

/-- Allocation policy, `mode` in `compute_metrics` together with the session
configuration it reads (`consumer_percentages`, `consumer_priorities`,
`consumer_group_keys`). -/
inductive Mode where
  | statique (percentages : List (String × ℚ))
  | dynamiqueDefaut
  | dynamiqueSimple (priorities : List (String × Int)) (gks : List (Int × GroupMode))

/-- Per-timestep output of `compute_metrics`: row `t` of `auto_partage_df`,
the complement contributions accumulated at `t`, and `surplus_total` at `t`. -/
structure StepOut where
  autoPartage : List (String × ℚ)
  fournCompl : List (String × ℚ)
  surplusTotal : ℚ

/-- The body of the `for t in range(n_rows)` loop of `compute_metrics`
(energie.py lines 494-580) at one timestep.  `prodTotal` is
`df_prod.iloc[t].sum()`, `conso` the consumer row `(column, demand)`.
When `prod_total == 0` the loop `continue`s, leaving the zero-initialised row. -/
def computeMetricsStep (prodTotal : ℚ) (conso : List (String × ℚ)) (mode : Mode) : StepOut :=
  if prodTotal = 0 then ⟨[], [], 0⟩
  else
    match mode with
    | Mode.statique pcts =>
      let (ap, fc, su) := allocRows (fun c _ => prodTotal * (getD pcts c 0 / 100)) conso
      ⟨ap, fc, su⟩
    | Mode.dynamiqueDefaut =>
      let consoTotal := (conso.map Prod.snd).sum
      if consoTotal = 0 then ⟨[], [], 0⟩
      else
        let (ap, fc, su) := allocRows (fun _ d => prodTotal * (d / consoTotal)) conso
        ⟨ap, fc, su⟩
    | Mode.dynamiqueSimple priorities gks =>
      let (ap, fc, su, remF) := processGroups conso priorities gks (sortedKeys priorities) prodTotal
      ⟨ap, fc, su + (if 0 < remF then remF else 0)⟩

/-- Surplus attribution to individual producers (energie.py lines 582-585):
`surplus_p = surplus_total * (prod_p / prod_total)` for each producer column. -/
def surplusPerProducer (prodRow : List (String × ℚ)) (prodTotal surplusTotal : ℚ) :
    List (String × ℚ) :=
  prodRow.map (fun p => (p.1, surplusTotal * (p.2 / prodTotal)))

/-! ## Imputer (src/services/curve_processing/imputer.py) -/

/-- One row of the imputer's working DataFrame: timestamp (minutes), the
`value` cell (`none` = NaN), and the added `_imputed` / `_impute_source`
columns. -/
structure Sample where
  ts : Int
  value : Option ℚ
  imputed : Bool
  source : Int
deriving Repr, DecidableEq

/-- Imputation report dict.  `imputed_pct` (a display percentage) is not
modelled.  `rejected` is `none` when the key is absent from the dict, which
happens on the early return for a series with no missing value. -/
structure ImputeReport where
  total_points : Nat
  missing_before : Nat
  missing_after : Nat
  imputed_count : Nat
  rejected : Option Bool
deriving Repr, DecidableEq

/-- Model of `Series.get(ts, nan)` on the working frame: `none` when the timestamp is
absent or the stored cell is NaN. -/
def valueAt (df : List Sample) (t : Int) : Option ℚ :=
  match df.find? (fun s => decide (s.ts = t)) with
  | some s => s.value
  | none => none

/-- Number of NaN cells, `df[value_col].isna().sum()`. -/
def countMissing (df : List Sample) : Nat :=
  (df.filter (fun s => s.value.isNone)).length

/-- One pass of the fill loop (imputer.py lines 85-101) for a single week
offset `off`.  `shifted = s.shift(off*24*7, freq="H")` places the value
originally at `u` at index `u + off` weeks, so `shifted.get(ts)` reads the
value at `ts - off` weeks, i.e. at minute `ts - off * 10080`.  The shifted
series is a snapshot taken before the pass, so all fills of the pass read the
same snapshot. -/
def applyOne (df : List Sample) (off : Int) : List Sample :=
  df.map (fun s =>
    if s.value.isNone then
      match valueAt df (s.ts - off * 10080) with
      | some v => { s with value := some v, imputed := true, source := off }
      | none => s
    else s)

/-- The offset loop (imputer.py lines 82-104): apply each offset in turn,
stopping early once no value is missing (`if missing_idx.empty: break`). -/
def applyOffsets (df : List Sample) : List Int → List Sample
  | [] => df
  | off :: rest =>
    if countMissing df = 0 then df
    else applyOffsets (applyOne df off) rest

/-- The candidate offsets `[-1, +1, -2, +2, ...]` up to `max_weeks`
(imputer.py lines 73-76). -/
def offsetsList (maxWeeks : Nat) : List Int :=
  (List.range maxWeeks).flatMap (fun w => [-(w + 1 : Int), (w + 1 : Int)])

/-- Model of `impute_by_week_shift(df, value_col, max_weeks)` (imputer.py lines 16-121)
on a series given as `(timestamp, value-or-NaN)` pairs.  The input is sorted
by timestamp (`df.sort_index()`) and the `_imputed` / `_impute_source`
columns are initialised to `False` / `0`.  `imputed_count` is
`((~orig_mask) & df["_imputed"]).sum()`; since `_imputed` is only ever set on
an originally-missing row, it equals the count of `_imputed` rows. -/
def impute_by_week_shift (df : List (Int × Option ℚ)) (maxWeeks : Nat) :
    List Sample × ImputeReport :=
  let df0 := (df.insertionSort (fun a b => a.1 ≤ b.1)).map
    (fun p => Sample.mk p.1 p.2 false 0)
  let missingBefore := countMissing df0
  if missingBefore = 0 then
    (df0, ⟨df0.length, 0, 0, 0, none⟩)
  else
    let df1 := applyOffsets df0 (offsetsList maxWeeks)
    let missingAfter := countMissing df1
    let imputedCount := (df1.filter (fun s => s.imputed)).length
    (df1, ⟨df1.length, missingBefore, missingAfter, imputedCount,
      some (decide (0 < missingAfter))⟩)

/-- The spec's imputation-determinism scenario: an hourly series whose day D
(24 samples, minutes 0..1380) is missing and whose day D+7 (minutes
10080..11460) is fully present. -/
def gapSeries : List (Int × Option ℚ) :=
  ((List.range 24).map (fun h => ((h * 60 : Int), (none : Option ℚ)))) ++
  ((List.range 24).map (fun h => ((10080 + h * 60 : Int), some (1 : ℚ))))

/-! ## Resampler (src/services/curve_processing/resampler.py and utils.py) -/

/-- Model of `detect_timestep` (utils.py lines 7-15) calls `pd.infer_freq`, modelled
for regularly spaced indexes: with at least 3 samples all at the same
positive spacing it returns the pandas alias of that spacing ("h" for 60
minutes), otherwise `None` (pd.infer_freq raises on shorter input and the
wrapper swallows the exception). -/
def freqAlias (d : Int) : Option String :=
  if d = 15 then some "15min"
  else if d = 30 then some "30min"
  else if d = 60 then some "h"
  else none

/-- Consecutive deltas of a timestamp list. -/
def deltasOf : List Int → List Int
  | a :: b :: rest => (b - a) :: deltasOf (b :: rest)
  | _ => []

/-- See `freqAlias`; model of `detect_timestep` / `pd.infer_freq`. -/
def detect_timestep (df : List (Int × ℚ)) : Option String :=
  let idx := df.map Prod.fst
  if idx.length < 3 then none
  else
    match deltasOf idx with
    | [] => none
    | d :: rest => if rest.all (fun x => decide (x = d)) ∧ 0 < d then freqAlias d else none

/-- Bin size in minutes of a pandas frequency string, used by the aggregate
path (`df.resample(target_freq)`). -/
def binMinutes (freq : String) : Int :=
  if freq = "15min" then 15 else if freq = "30min" then 30 else 60

/-- Model of `df.resample(freq).agg({"value": "sum"})`: bins are `[k*size, (k+1)*size)`
for `k` from `floor(min/size)` to `floor(max/size)`; pandas sums an empty bin
to 0 (and the subsequent `fillna(0)` leaves no NaN). -/
def resampleSum (df : List (Int × ℚ)) (size : Int) : List (Int × ℚ) :=
  match df.map Prod.fst with
  | [] => []
  | t :: ts =>
    let lo := Int.fdiv (ts.foldl min t) size
    let hi := Int.fdiv (ts.foldl max t) size
    (List.range (hi - lo + 1).toNat).map (fun i : ℕ =>
      let k := lo + (i : Int)
      (k * size, ((df.filter (fun p => decide (Int.fdiv p.1 size = k))).map Prod.snd).sum))

/-- Linear interpolation between the two nearest anchors of `t` among the
source samples lying on the target grid; `none` when an edge has no anchor
(pandas leaves NaN there, later filled with 0). -/
def interpAt (df : List (Int × ℚ)) (t : Int) : Option ℚ :=
  match (df.lookup t) with
  | some v => some v
  | none =>
    let before := (df.filter (fun p => decide (p.1 < t))).foldl
      (fun acc p => match acc with
        | none => some p
        | some q => if q.1 < p.1 then some p else some q) none
    let after := (df.filter (fun p => decide (t < p.1))).foldl
      (fun acc p => match acc with
        | none => some p
        | some q => if p.1 < q.1 then some p else some q) none
    match before, after with
    | some (tp, vp), some (tn, vn) => some (vp + (vn - vp) * ((t - tp : ℚ) / (tn - tp : ℚ)))
    | _, _ => none

/-- Model of `df.resample(freq)["value"].interpolate(method="linear")` followed by
`fillna(0)`: the target grid spans `floor(min/size)*size` to
`floor(max/size)*size`; grid points carry their exact-match value when the
source has one, linear interpolation between neighbouring matches otherwise,
and 0 at the edges where no anchor exists. -/
def resampleInterp (df : List (Int × ℚ)) (size : Int) : List (Int × ℚ) :=
  match df.map Prod.fst with
  | [] => []
  | t :: ts =>
    let lo := Int.fdiv (ts.foldl min t) size
    let hi := Int.fdiv (ts.foldl max t) size
    (List.range (hi - lo + 1).toNat).map (fun i : ℕ =>
      let g := (lo + (i : Int)) * size
      (g, (interpAt df g).getD 0))

/-- Model of `resample_curve` (resampler.py lines 9-52) with `method="auto"`, on a
curve with no NaN values (the reader drops unparseable cells before
resampling).  Returns the resampled frame and a message naming the path
taken. -/
def resample_curve (df : List (Int × ℚ)) (targetTimestep : String) :
    List (Int × ℚ) × String :=
  let freqMap : List (String × String) :=
    [("PT15M", "15min"), ("PT30M", "30min"), ("PT60M", "60min"), ("PT1H", "60min")]
  let targetFreq := ((freqMap.lookup targetTimestep).getD "60min")
  let sourceTimestep := detect_timestep df
  if sourceTimestep = some targetTimestep then
    (df, "No change (already " ++ targetTimestep ++ ")")
  else
    let freqMinutes : List (String × Int) :=
      [("PT15M", 15), ("PT30M", 30), ("PT60M", 60), ("PT1H", 60),
       ("h", 60), ("15min", 15), ("30min", 30), ("60min", 60), ("1h", 60)]
    let sourceMin := match sourceTimestep with
      | some s => (freqMinutes.lookup s).getD 60
      | none => 60
    let targetMin := (freqMinutes.lookup targetFreq).getD 60
    if sourceMin ≤ targetMin then
      (resampleSum df (binMinutes targetFreq), "Resampled (aggregate)")
    else
      (resampleInterp df (binMinutes targetFreq), "Resampled (interpolate)")

/-- An hour-aligned, gap-free hourly curve: samples every 60 minutes starting
at `t0`.  Used to state the resampling pass-through property. -/
def hourlyFrom (t0 : Int) : List ℚ → List (Int × ℚ)
  | [] => []
  | v :: rest => (t0, v) :: hourlyFrom (t0 + 60) rest

/-! ## Reader unit handling (src/services/curve_processing/io.py) -/

/-- Model of `needle.isPrefixOf hay` on character lists, written out so its
monotonicity can be proved directly. -/
def hasPre : List Char → List Char → Bool
  | [], _ => true
  | _ :: _, [] => false
  | a :: n, b :: h => a = b && hasPre n h

/-- Python's substring test `needle in hay` on character lists. -/
def hasSub (n : List Char) (h : List Char) : Bool :=
  match h with
  | [] => n.isEmpty
  | _ :: t => hasPre n h || hasSub n t

/-- Model of `needle in hay` on strings (case handling is done by the caller). -/
def strContains (hay needle : String) : Bool :=
  hasSub needle.toList hay.toList

/-- Python's `str.lower()`, written over the character list. -/
def toLowerStr (s : String) : String :=
  String.mk (s.data.map Char.toLower)

/-- Model of `_infer_unit(fmt, val_col)` (io.py lines 191-214): format-tag rules first,
then case-insensitive substring checks on the column name in the source's
order `kw`, `w`, `kwh`, `wh`; default "Unknown". -/
def inferUnit (fmt : String) (valCol : String) : String :=
  let colLower := toLowerStr valCol
  if fmt = "ALEX" then "W"
  else if fmt = "SGE" then "W"
  else if strContains colLower "kw" then "kW"
  else if strContains colLower "w" then "W"
  else if strContains colLower "kwh" then "kWh"
  else if strContains colLower "wh" then "Wh"
  else "Unknown"

/-- The value normalisation of `read_curve` (io.py lines 93-96): divide by
1000 when the inferred unit is "W" or "Wh", otherwise pass through. -/
def normalizeUnitValue (unit : String) (v : ℚ) : ℚ :=
  if unit = "W" then v / 1000
  else if unit = "Wh" then v / 1000
  else v

/-- The metadata update of `read_curve` (io.py lines 99-102). -/
def normalizedUnitName (unit : String) : String :=
  if unit = "W" then "kW"
  else if unit = "Wh" then "kWh"
  else unit

/-! ## Aggregator (src/services/data_aggregation.py) -/

/-- Curve attachment of one point dict: `None`, a plain DataFrame, or the
`process_curve` bundle `{"df": ..., "impute_report": {... "rejected": ...}}`
(the report's `rejected` key may be absent, mirrored by `Option Bool`). -/
inductive CurveData where
  | noData
  | plain (df : List (Int × ℚ))
  | bundle (df : List (Int × ℚ)) (rejectedFlag : Option Bool)

/-- One point dict, reduced to the fields `build_dataframes` reads: the
resolved PDL name and the curve attachment. -/
structure Point where
  name : String
  curve : CurveData

/-- Model of `_normalize_curve` (data_aggregation.py lines 168-231) for curves that are
already time-indexed numeric series, as produced by the processing pipeline:
it succeeds and returns the series; an empty series yields `None`. -/
def normalizeCurve (df : List (Int × ℚ)) : Option (List (Int × ℚ)) :=
  if df.isEmpty then none else some df

/-- Model of `d[k] = v` on a Python dict modelled as an association list: an existing
key keeps its position and takes the new value, a new key is appended. -/
def upsert (l : List (String × List (Int × ℚ))) (k : String) (v : List (Int × ℚ)) :
    List (String × List (Int × ℚ)) :=
  match l with
  | [] => [(k, v)]
  | (k', v') :: rest => if k' = k then (k, v) :: rest else (k', v') :: upsert rest k v

/-- The decision made for one point of the collection loop: either the
normalised series to add as a column, or the error message to log. -/
def pointOutcome (role : String) (p : Point) : Option (List (Int × ℚ)) ⊕ String :=
  match p.curve with
  | CurveData.noData => Sum.inr (role ++ " " ++ p.name ++ ": no curve data")
  | CurveData.bundle df rej =>
    if rej.getD false then
      Sum.inr (role ++ " " ++ p.name ++
        ": REJECTED (no imputable values after plus or minus 4 weeks)")
    else if df.isEmpty then
      Sum.inr (role ++ " " ++ p.name ++ ": no valid curve data")
    else
      match normalizeCurve df with
      | some s => Sum.inl (some s)
      | none => Sum.inr (role ++ " " ++ p.name ++ ": could not normalize curve")
  | CurveData.plain df =>
    if df.isEmpty then
      Sum.inr (role ++ " " ++ p.name ++ ": no valid curve data")
    else
      match normalizeCurve df with
      | some s => Sum.inl (some s)
      | none => Sum.inr (role ++ " " ++ p.name ++ ": could not normalize curve")

/-- The per-role collection loop of `build_dataframes`
(data_aggregation.py lines 72-100 for consumers, 102-131 for producers; the
two loops are identical up to the role label).  Points are processed in list
order, accumulating the series dict, the `*_with_data` counter
(incremented on every successful inclusion, also on a name overwrite) and
the error messages. -/
def collectLoop (role : String) (ts : List (String × List (Int × ℚ))) (n : Nat)
    (errs : List String) : List Point → List (String × List (Int × ℚ)) × Nat × List String
  | [] => (ts, n, errs)
  | p :: rest =>
    match pointOutcome role p with
    | Sum.inl (some s) => collectLoop role (upsert ts p.name s) (n + 1) errs rest
    | Sum.inl none => collectLoop role ts n errs rest
    | Sum.inr e => collectLoop role ts n (errs ++ [e]) rest

/-- See `collectLoop`; entry point with empty accumulators. -/
def collectPoints (role : String) (points : List Point) :
    List (String × List (Int × ℚ)) × Nat × List String :=
  collectLoop role [] 0 [] points

/-- Whether the collection loop includes a point as a column (and counts it
in `*_with_data`): exactly the points whose outcome is a normalised series. -/
def includedPoint (role : String) (p : Point) : Bool :=
  match pointOutcome role p with
  | Sum.inl (some _) => true
  | _ => false

/-- Consolidated actor-by-time table: column names plus rows
`(timestamp, one optional value per column)`; `none` is a NaN cell. -/
structure Table where
  cols : List String
  rows : List (Int × List (Option ℚ))
deriving Repr, DecidableEq

/-- Mean of the present values of a resampling bin: pandas `mean()` per
column, NaN when the bin holds no value for that column. -/
def binMean (vals : List (Option ℚ)) : Option ℚ :=
  let present := vals.filterMap id
  if present.isEmpty then none
  else some (present.sum / present.length)

/-- The sorted union of the column indexes, the row index produced by
`pd.DataFrame(ts_dict)`. -/
def mergedIndex (ts : List (String × List (Int × ℚ))) : List Int :=
  ((ts.flatMap (fun c => c.2.map Prod.fst)).dedup).insertionSort (· ≤ ·)

/-- Model of `df.resample("1H").mean()` (data_aggregation.py line 273): hourly bins
spanning `floor(min/60)` to `floor(max/60)`, each cell the mean of the
column's samples in the bin, NaN when the bin is empty for that column. -/
def resampleHourlyMean (t : Table) : Table :=
  match t.rows.map Prod.fst with
  | [] => { cols := t.cols, rows := [] }
  | a :: rest =>
    let lo := Int.fdiv (rest.foldl min a) 60
    let hi := Int.fdiv (rest.foldl max a) 60
    { cols := t.cols,
      rows := (List.range (hi - lo + 1).toNat).map (fun i : ℕ =>
        let k := lo + (i : Int)
        let inBin := t.rows.filter (fun r => decide (Int.fdiv r.1 60 = k))
        (k * 60, (List.range t.cols.length).map (fun j =>
          binMean (inBin.filterMap (fun r => r.2.get? j))))) }

/-- Model of `_build_consolidated_dataframe` (data_aggregation.py lines 234-285)
without the optional start/end date filters (its callers in this repository
pass none): merge the series on the union of their indexes, then coerce to
the hourly grid by mean-resampling.  The merged union index carries no
hourly-frequency attribute, so the `df.index.freq != pd.offsets.Hour()`
branch is taken.  Returns `None` for an empty dict or an empty result. -/
def buildConsolidated (ts : List (String × List (Int × ℚ))) : Option Table :=
  if ts.isEmpty then none
  else
    let idx := mergedIndex ts
    let merged : Table :=
      { cols := ts.map Prod.fst,
        rows := idx.map (fun t => (t, ts.map (fun c => c.2.lookup t))) }
    let df2 := resampleHourlyMean merged
    if df2.rows.isEmpty then none else some df2

/-- The summary dict of `build_dataframes`. -/
structure Summary where
  consumers_count : Nat
  producers_count : Nat
  consumers_with_data : Nat
  producers_with_data : Nat
  time_range : Option (Int × Int)
  alignment_status : String
  errors : List String
deriving Repr, DecidableEq

/-- Model of `df.index.min()` of a consolidated table (nonempty by construction). -/
def idxMin (t : Table) : Int :=
  match t.rows.map Prod.fst with
  | [] => 0
  | a :: rest => rest.foldl min a

/-- Model of `df.index.max()` of a consolidated table (nonempty by construction). -/
def idxMax (t : Table) : Int :=
  match t.rows.map Prod.fst with
  | [] => 0
  | a :: rest => rest.foldl max a

/-- Model of `df.loc[lo:hi]` on a sorted time index: the rows with `lo ≤ t ≤ hi`. -/
def truncateTable (t : Table) (lo hi : Int) : Table :=
  { cols := t.cols, rows := t.rows.filter (fun r => decide (lo ≤ r.1 ∧ r.1 ≤ hi)) }

/-- The time-range alignment step of `build_dataframes`
(data_aggregation.py lines 147-163). -/
def alignStep (cdf pdf : Option Table) (s : Summary) :
    Option Table × Option Table × Summary :=
  match cdf, pdf with
  | some c, some p =>
    let lo := max (idxMin c) (idxMin p)
    let hi := min (idxMax c) (idxMax p)
    if hi < lo then
      (some c, some p,
        { s with alignment_status := "ERROR: no temporal overlap",
                 errors := s.errors ++ ["Consumer and producer time ranges do not overlap"] })
    else
      (some (truncateTable c lo hi), some (truncateTable p lo hi),
        { s with time_range := some (lo, hi), alignment_status := "Aligned" })
  | some c, none => (some c, none, { s with time_range := some (idxMin c, idxMax c) })
  | none, some p => (none, some p, { s with time_range := some (idxMin p, idxMax p) })
  | none, none => (none, none, s)

/-- Model of `build_dataframes` (data_aggregation.py lines 20-165) without the optional
start/end dates: collect both roles, build both consolidated tables, then
align their time ranges. -/
def build_dataframes (pointsC pointsP : List Point) :
    Option Table × Option Table × Summary :=
  let (consumersTs, cWith, cErrs) := collectPoints "Consumer" pointsC
  let (producersTs, pWith, pErrs) := collectPoints "Producer" pointsP
  let cdf := buildConsolidated consumersTs
  let pdf := buildConsolidated producersTs
  let s0 : Summary :=
    { consumers_count := pointsC.length,
      producers_count := pointsP.length,
      consumers_with_data := cWith,
      producers_with_data := pWith,
      time_range := none,
      alignment_status := "OK",
      errors := cErrs ++ pErrs
        ++ (if consumersTs.isEmpty then ["No consumer data to aggregate"] else [])
        ++ (if producersTs.isEmpty then ["No producer data to aggregate"] else []) }
  alignStep cdf pdf s0

/-! ## Shared lemmas -/

theorem splitAlloc_self_add_surplus (a d : ℚ) :
    (splitAlloc a d).1 + (splitAlloc a d).2.1 = a := by
  unfold splitAlloc
  split <;> ring

theorem allocRows_cons (f : String → ℚ → ℚ) (c : String) (d : ℚ)
    (rest : List (String × ℚ)) :
    allocRows f ((c, d) :: rest) =
      ((c, (splitAlloc (f c d) d).1) :: (allocRows f rest).1,
       (c, (splitAlloc (f c d) d).2.2) :: (allocRows f rest).2.1,
       (splitAlloc (f c d) d).2.1 + (allocRows f rest).2.2) := rfl

theorem allocRows_conservation (f : String → ℚ → ℚ) (l : List (String × ℚ)) :
    ((allocRows f l).1.map Prod.snd).sum + (allocRows f l).2.2 =
      (l.map (fun p => f p.1 p.2)).sum := by
  induction l with
  | nil => simp [allocRows]
  | cons p rest ih =>
    obtain ⟨c, d⟩ := p
    rw [allocRows_cons]
    simp only [List.map_cons, List.sum_cons]
    have h := splitAlloc_self_add_surplus (f c d) d
    linarith

theorem sum_map_scaled (l : List (String × ℚ)) (g : String × ℚ → ℚ) (a S : ℚ) :
    (l.map (fun p => a * (g p / S))).sum = a * ((l.map g).sum / S) := by
  induction l with
  | nil => simp
  | cons x t ih => simp [ih, add_div, mul_add]

/-! ## C1: conservation for the Default and Static policies -/

/-- Claim **C1** (counterexample): with `prod_total = 100`, a single consumer of
demand 10 and a Static percentage of 50 (percentages summing to 50, not 100),
self-consumption is 10 and the surplus is 40, so
`Σ self_consumption + surplus_total = 50`, which misses `prod_total` by far
more than the claimed `1e-6` tolerance. -/
theorem C1_counterexample :
    (((computeMetricsStep 100 [("a", 10)] (Mode.statique [("a", 50)])).autoPartage.map
        Prod.snd).sum
      + (computeMetricsStep 100 [("a", 10)] (Mode.statique [("a", 50)])).surplusTotal = 50) ∧
    ¬ (|(50 : ℚ) - 100| ≤ 1 / 1000000) := by
  constructor
  · norm_num [computeMetricsStep, allocRows, splitAlloc, getD]
  · norm_num

/-- Claim **C1** (amended): conservation
`Σ self_consumption(t) + surplus_total(t) = prod_total(t)` holds exactly for a
timestep with `prod_total(t) > 0` under the preconditions the code needs:
for the Static policy when the percentage lookups over the consumer columns
sum to 100, and for the Default policy when total demand at `t` is non-zero
(on a zero-demand timestep the Default branch `continue`s, recording neither
self-consumption nor surplus). -/
theorem C1_prop (prodTotal : ℚ) (conso pcts : List (String × ℚ))
    (hp : 0 < prodTotal) :
    ((conso.map (fun p => getD pcts p.1 0)).sum = 100 →
      ((computeMetricsStep prodTotal conso (Mode.statique pcts)).autoPartage.map
          Prod.snd).sum
        + (computeMetricsStep prodTotal conso (Mode.statique pcts)).surplusTotal
        = prodTotal) ∧
    ((conso.map Prod.snd).sum ≠ 0 →
      ((computeMetricsStep prodTotal conso Mode.dynamiqueDefaut).autoPartage.map
          Prod.snd).sum
        + (computeMetricsStep prodTotal conso Mode.dynamiqueDefaut).surplusTotal
        = prodTotal) := by
  have hne : prodTotal ≠ 0 := ne_of_gt hp
  constructor
  · intro hsum
    simp only [computeMetricsStep, if_neg hne]
    have h := allocRows_conservation (fun c _ => prodTotal * (getD pcts c 0 / 100)) conso
    rw [h, sum_map_scaled conso (fun p => getD pcts p.1 0) prodTotal 100, hsum]
    norm_num
  · intro hcz
    simp only [computeMetricsStep, if_neg hne, if_neg hcz]
    have h := allocRows_conservation
      (fun _ d => prodTotal * (d / (conso.map Prod.snd).sum)) conso
    rw [h, sum_map_scaled conso Prod.snd prodTotal ((conso.map Prod.snd).sum),
      div_self hcz, mul_one]

/-- Claim **C1** (witness): the spec's own Static scenario — `prod_total = 100`,
percentages 60/40 summing to 100, demands 50/50 — conserves exactly, as does
the Default policy on the same demands. -/
theorem C1_witness :
    (((computeMetricsStep 100 [("a", 50), ("b", 50)]
        (Mode.statique [("a", 60), ("b", 40)])).autoPartage.map Prod.snd).sum
      + (computeMetricsStep 100 [("a", 50), ("b", 50)]
          (Mode.statique [("a", 60), ("b", 40)])).surplusTotal = 100) ∧
    (((computeMetricsStep 100 [("a", 50), ("b", 50)]
        Mode.dynamiqueDefaut).autoPartage.map Prod.snd).sum
      + (computeMetricsStep 100 [("a", 50), ("b", 50)]
          Mode.dynamiqueDefaut).surplusTotal = 100) :=
  ⟨(C1_prop 100 [("a", 50), ("b", 50)] [("a", 60), ("b", 40)] (by norm_num)).1
      (by simp [getD]; norm_num),
   (C1_prop 100 [("a", 50), ("b", 50)] [("a", 60), ("b", 40)] (by norm_num)).2
      (by norm_num)⟩

/-! ## C2: Default sub-policy inside DynamicSimple -/

theorem processGroups_gks_nil_fc (conso : List (String × ℚ))
    (priorities : List (String × Int)) (ks : List Int) (rem : ℚ) :
    (processGroups conso priorities [] ks rem).2.1 = [] := by
  induction ks generalizing rem with
  | nil => rfl
  | cons pr rest ih =>
    simp only [processGroups, getGroupMode]
    split
    · rfl
    · simpa using ih _

/-- Claim **C2** (counterexample): one consumer of demand 10 in a single
Default-sub-policy priority group with `prod_total = 5`: the member's
allocation is 5 and its self-consumption is 5, but the recorded purchased
complement is 0, not `demand − allocation = 5`. -/
theorem C2_counterexample :
    ((computeMetricsStep 5 [("a", 10)]
        (Mode.dynamiqueSimple [("a", 1)] [])).autoPartage = [("a", 5)]) ∧
    (getD (computeMetricsStep 5 [("a", 10)]
        (Mode.dynamiqueSimple [("a", 1)] [])).fournCompl "a" 0 = 0) ∧
    ¬ ((0 : ℚ) = 10 - 5) := by
  refine ⟨?_, ?_, by norm_num⟩ <;>
    norm_num [computeMetricsStep, processGroups, sortedKeys, membersOf, getGroupMode,
      allocGroupDefaut, getD, List.insertionSort, List.orderedInsert]

/-- Claim **C2** (amended): in a Default-sub-policy group, a member whose demand
exceeds its proportional share of the granted production receives
self-consumption equal to that allocation, but the code records no purchased
complement for Default-sub-policy groups — `fourn_compl` is untouched there,
so with only Default groups configured the complement list stays empty. -/
theorem C2_prop :
    (∀ (conso : List (String × ℚ)) (prof gc : ℚ) (members : List String)
       (c : String), c ∈ members →
       prof * (getD conso c 0 / gc) < getD conso c 0 →
       getD (allocGroupDefaut conso prof gc members) c 0
         = prof * (getD conso c 0 / gc)) ∧
    (∀ (prodTotal : ℚ) (conso : List (String × ℚ))
       (priorities : List (String × Int)),
       (computeMetricsStep prodTotal conso
         (Mode.dynamiqueSimple priorities [])).fournCompl = []) := by
  constructor
  · intro conso prof gc members c hc hlt
    induction members with
    | nil => cases hc
    | cons m rest ih =>
      simp only [allocGroupDefaut, List.map_cons, getD]
      by_cases hm : m = c
      · subst hm
        rw [if_pos rfl, min_eq_left (le_of_lt hlt)]
      · rw [if_neg hm]
        rcases List.mem_cons.mp hc with h | h
        · exact absurd h.symm hm
        · exact ih h
  · intro prodTotal conso priorities
    by_cases hz : prodTotal = 0
    · simp [computeMetricsStep, hz]
    · simp only [computeMetricsStep, if_neg hz]
      exact processGroups_gks_nil_fc conso priorities (sortedKeys priorities) prodTotal

/-- Claim **C2** (witness): the amended rule evaluated at the counterexample input —
self-consumption 5 for the over-demanding member, and an empty complement
list for the Default-only configuration. -/
theorem C2_witness :
    (getD (allocGroupDefaut [("a", 10)] 5 10 ["a"]) "a" 0 = 5 * ((10 : ℚ) / 10)) ∧
    ((computeMetricsStep 7 [("a", 3)]
        (Mode.dynamiqueSimple [("a", 1)] [])).fournCompl = []) :=
  ⟨C2_prop.1 [("a", 10)] 5 10 ["a"] "a" (by decide) (by norm_num [getD]),
   C2_prop.2 7 [("a", 3)] [("a", 1)]⟩

/-! ## C8: priority ordering in DynamicSimple -/

theorem getD_append_of_not_mem (l1 l2 : List (String × ℚ)) (c : String) (d : ℚ)
    (h : c ∉ l1.map Prod.fst) : getD (l1 ++ l2) c d = getD l2 c d := by
  induction l1 with
  | nil => rfl
  | cons x t ih =>
    obtain ⟨k, v⟩ := x
    simp only [List.map_cons, List.mem_cons, not_or] at h
    simp only [List.cons_append, getD]
    rw [if_neg (fun hh => h.1 hh.symm)]
    exact ih h.2

theorem allocGroupStatic_keys (conso pcts : List (String × ℚ)) (prof : ℚ)
    (members : List String) :
    (allocGroupStatic conso pcts prof members).1.map Prod.fst = members := by
  induction members with
  | nil => rfl
  | cons m t ih =>
    simp only [allocGroupStatic, List.map_cons]
    rw [ih]

theorem allocGroupDefaut_keys (conso : List (String × ℚ)) (prof gc : ℚ)
    (members : List String) :
    (allocGroupDefaut conso prof gc members).map Prod.fst = members := by
  simp [allocGroupDefaut, List.map_map, Function.comp_def]

theorem processGroups_ap_nil (conso : List (String × ℚ))
    (priorities : List (String × Int)) (gks : List (Int × GroupMode))
    (ks : List Int) (rem : ℚ) (h : rem ≤ 0) :
    (processGroups conso priorities gks ks rem).1 = [] := by
  cases ks with
  | nil => rfl
  | cons pr rest => simp [processGroups, h]

theorem nodup_keys_eq {l : List (String × Int)} (hnd : (l.map Prod.fst).Nodup)
    {a : String} {b c : Int} (h1 : (a, b) ∈ l) (h2 : (a, c) ∈ l) : b = c := by
  induction l with
  | nil => cases h1
  | cons x t ih =>
    simp only [List.map_cons, List.nodup_cons] at hnd
    rcases List.mem_cons.mp h1 with hx1 | h1'
    · rcases List.mem_cons.mp h2 with hx2 | h2'
      · rw [← hx1] at hx2
        exact (Prod.mk.injEq .. ▸ hx2).2.symm
      · exact absurd (List.mem_map.mpr ⟨(a, c), h2', by rw [← hx1]⟩) hnd.1
    · rcases List.mem_cons.mp h2 with hx2 | h2'
      · exact absurd (List.mem_map.mpr ⟨(a, b), h1', by rw [← hx2]⟩) hnd.1
      · exact ih hnd.2 h1' h2'

/-- Claim **C8** (confirmed): in DynamicSimple, when the demand of the first
priority group (the head of the sorted priority keys) is at least
`prod_total(t) `, every consumer belonging to a later group gets zero
self-consumption from shared production at `t`: `remaining_production`
reaches zero after the first group and the group loop `break`s. -/
theorem C8_prop (prodTotal : ℚ) (conso : List (String × ℚ))
    (priorities : List (String × Int)) (gks : List (Int × GroupMode))
    (c : String) (pr k0 : Int) (rest : List Int)
    (hnd : (priorities.map Prod.fst).Nodup)
    (hmem : (c, pr) ∈ priorities)
    (hsk : sortedKeys priorities = k0 :: rest)
    (hlt : k0 < pr)
    (hdem : prodTotal ≤ ((membersOf priorities k0).map (fun x => getD conso x 0)).sum) :
    getD (computeMetricsStep prodTotal conso
      (Mode.dynamiqueSimple priorities gks)).autoPartage c 0 = 0 := by
  have hck0 : c ∉ membersOf priorities k0 := by
    intro hc
    obtain ⟨p, hp, hpc⟩ := List.mem_map.mp hc
    have hpf := List.mem_filter.mp hp
    have h2 : p.2 = k0 := by simpa using hpf.2
    have hmem0 : (c, k0) ∈ priorities := by
      have hpe : p = (c, k0) := by
        obtain ⟨p1, p2⟩ := p
        simp only [Prod.mk.injEq]
        exact ⟨hpc, h2⟩
      rw [← hpe]
      exact hpf.1
    have := nodup_keys_eq hnd hmem hmem0
    omega
  by_cases hz : prodTotal = 0
  · simp [computeMetricsStep, hz, getD]
  · simp only [computeMetricsStep, if_neg hz, hsk]
    by_cases hle : prodTotal ≤ 0
    · simp [processGroups, hle, getD]
    · have hmin : min prodTotal ((membersOf priorities k0).map
          (fun x => getD conso x 0)).sum = prodTotal := min_eq_left hdem
      simp only [processGroups, if_neg hle]
      cases hgm : getGroupMode gks k0 with
      | staticKey pcts =>
        simp only [hgm, hmin, sub_self]
        rw [getD_append_of_not_mem _ _ _ _
            (by rw [allocGroupStatic_keys]; exact hck0),
          processGroups_ap_nil _ _ _ _ _ le_rfl]
        rfl
      | defaultKey =>
        simp only [hgm, hmin, sub_self]
        rw [getD_append_of_not_mem _ _ _ _ ?_,
          processGroups_ap_nil _ _ _ _ _ le_rfl]
        · rfl
        · split
          · rw [allocGroupDefaut_keys]; exact hck0
          · simp

/-- Claim **C8** (witness): two consumers in two priority groups, the first group's
demand (10) equal to `prod_total = 10`: the priority-2 consumer "b" gets
zero self-consumption. -/
theorem C8_witness :
    getD (computeMetricsStep 10 [("a", 10), ("b", 5)]
      (Mode.dynamiqueSimple [("a", 1), ("b", 2)] [])).autoPartage "b" 0 = 0 :=
  C8_prop 10 [("a", 10), ("b", 5)] [("a", 1), ("b", 2)] [] "b" 2 1 [2]
    (by decide) (by decide) (by decide) (by decide)
    (by simp [membersOf, getD])

/-! ## C3: imputation determinism and the recorded week offset -/

/-- Claim **C3** (code bug): on the spec's determinism scenario (24-sample gap at
day D, day D+7 fully present, `max_weeks = 1`) the counts behave as claimed
(`missing_before = 24`, `imputed_count = 24`, `missing_after = 0`,
`rejected = false`), but every imputed sample records week offset `-1`, not
`+1`: `s.shift(off*24*7, freq="H")` moves the series index by `off` weeks, so
the pass recorded as offset `-1` reads the value one week in the *future*
(day D+7), contradicting the imputer's own docstring
("`-1` for t-1w") and its fallback lookup `ts + DateOffset(weeks=off)`. -/
theorem C3_prop :
    ((impute_by_week_shift gapSeries 1).2.missing_before = 24) ∧
    ((impute_by_week_shift gapSeries 1).2.imputed_count = 24) ∧
    ((impute_by_week_shift gapSeries 1).2.missing_after = 0) ∧
    ((impute_by_week_shift gapSeries 1).2.rejected = some false) ∧
    ((impute_by_week_shift gapSeries 1).1.all
      (fun s => !s.imputed || decide (s.source = -1)) = true) ∧
    ((impute_by_week_shift gapSeries 1).1.any (fun s => s.imputed) = true) := by
  decide

/-! ## C5: the `rejected` flag of the imputation report -/

/-- Claim **C5** (counterexample): a series with no missing value at all takes the
early return of `impute_by_week_shift`, whose report dict has *no*
`rejected` key — the claim that every report contains a boolean `rejected`
flag (false here) fails. -/
theorem C5_counterexample :
    (impute_by_week_shift [((0 : Int), some (1 : ℚ))] 4).2.rejected = none ∧
    (impute_by_week_shift [((0 : Int), some (1 : ℚ))] 4).2.rejected ≠ some false := by
  decide

/-- Claim **C5** (amended): when the input series has at least one missing value the
report carries `rejected = (missing_after > 0)`; when it has none, the early
return omits the `rejected` key altogether (downstream readers use
`report.get("rejected", False)`, treating the absent key as not rejected). -/
theorem C5_prop (df : List (Int × Option ℚ)) (mw : Nat) :
    (0 < (impute_by_week_shift df mw).2.missing_before →
      (impute_by_week_shift df mw).2.rejected
        = some (decide (0 < (impute_by_week_shift df mw).2.missing_after))) ∧
    ((impute_by_week_shift df mw).2.missing_before = 0 →
      (impute_by_week_shift df mw).2.rejected = none) := by
  by_cases h0 : countMissing ((df.insertionSort (fun a b => a.1 ≤ b.1)).map
      (fun p => Sample.mk p.1 p.2 false 0)) = 0
  · constructor
    · intro h
      simp only [impute_by_week_shift, if_pos h0] at h
      omega
    · intro _
      simp only [impute_by_week_shift, if_pos h0]
  · constructor
    · intro _
      simp only [impute_by_week_shift, if_neg h0]
    · intro h
      simp only [impute_by_week_shift, if_neg h0] at h
      exact absurd h h0

/-- Claim **C5** (witness): the spec's rejection scenario — a gap not coverable by
weekly shifts in either direction (here a lone missing sample with no value
one to four weeks away) — goes through the main path, and the amended rule
instantiates to `rejected = some true` there (`missing_after = 1 > 0`). -/
theorem C5_witness :
    (impute_by_week_shift [((0 : Int), (none : Option ℚ)), (60, some 1)] 4).2.rejected
      = some (decide (0 <
        (impute_by_week_shift [((0 : Int), (none : Option ℚ)), (60, some 1)] 4).2.missing_after)) :=
  (C5_prop [((0 : Int), (none : Option ℚ)), (60, some 1)] 4).1 (by decide)

/-! ## C9: unit inference and scaling in the Reader -/

theorem hasPre_append (a b h : List Char) (hh : hasPre (a ++ b) h = true) :
    hasPre a h = true := by
  induction a generalizing h with
  | nil => rfl
  | cons x a' ih =>
    cases h with
    | nil => simp [hasPre] at hh
    | cons y h' =>
      simp only [List.cons_append, hasPre, Bool.and_eq_true] at hh ⊢
      exact ⟨hh.1, ih h' hh.2⟩

theorem hasSub_append (a b h : List Char) (hh : hasSub (a ++ b) h = true) :
    hasSub a h = true := by
  induction h with
  | nil =>
    simp only [hasSub, List.isEmpty_iff, List.append_eq_nil] at hh ⊢
    exact hh.1
  | cons c t ih =>
    simp only [hasSub, Bool.or_eq_true] at hh ⊢
    rcases hh with h1 | h2
    · exact Or.inl (hasPre_append _ _ _ h1)
    · exact Or.inr (ih h2)

/-- Claim **C9** (code bug): `_infer_unit` checks the substring `kw` before `kwh`
and `w` before `wh`, so the `kwh` / `wh` branches are unreachable dead code:
a column whose name indicates kWh is inferred as "kW" and one indicating Wh
as "W"; no input can ever produce "kWh" or "Wh".  The scaling itself behaves
as described: "W" (and "Wh", were it reachable) divides by 1000, "kW" and
unknown units pass through unchanged. -/
theorem C9_prop :
    inferUnit "Unknown" "kwh" = "kW" ∧
    inferUnit "Unknown" "Wh" = "W" ∧
    (∀ fmt col : String, inferUnit fmt col ≠ "kWh" ∧ inferUnit fmt col ≠ "Wh") ∧
    normalizeUnitValue "W" 2500 = 5 / 2 ∧
    normalizeUnitValue "kW" 2500 = 2500 ∧
    normalizeUnitValue "Unknown" 2500 = 2500 := by
  refine ⟨by decide, by decide, ?_, by norm_num [normalizeUnitValue],
    by simp [normalizeUnitValue], by simp [normalizeUnitValue]⟩
  intro fmt col
  by_cases hA : fmt = "ALEX"
  · simp [inferUnit, hA]
  by_cases hS : fmt = "SGE"
  · simp [inferUnit, hA, hS]
  by_cases hkw : strContains (toLowerStr col) "kw" = true
  · simp [inferUnit, hA, hS, hkw]
  by_cases hw : strContains (toLowerStr col) "w" = true
  · simp [inferUnit, hA, hS, hkw, hw]
  have hkwh : ¬ strContains (toLowerStr col) "kwh" = true := by
    intro hx
    apply hkw
    have e : "kwh".toList = "kw".toList ++ ['h'] := by decide
    have hx' : hasSub ("kw".toList ++ ['h']) (toLowerStr col).toList = true := by
      unfold strContains at hx
      rwa [e] at hx
    exact hasSub_append _ _ _ hx'
  have hwh : ¬ strContains (toLowerStr col) "wh" = true := by
    intro hx
    apply hw
    have e : "wh".toList = "w".toList ++ ['h'] := by decide
    have hx' : hasSub ("w".toList ++ ['h']) (toLowerStr col).toList = true := by
      unfold strContains at hx
      rwa [e] at hx
    exact hasSub_append _ _ _ hx'
  simp [inferUnit, hA, hS, hkw, hw, hkwh, hwh]

/-- Claim **C9** (witness): the unreachability statement applied at a concrete
kWh-indicating column name. -/
theorem C9_witness : inferUnit "Unknown" "load_kwh" ≠ "kWh" :=
  (C9_prop.2.2.1 "Unknown" "load_kwh").1

/-! ## C6: time-range alignment of the consolidated tables -/

/-- Claim **C6** (confirmed): when both consolidated tables exist, the alignment
step intersects their ranges as `[max of minima, min of maxima]`; a non-empty
intersection truncates both tables to exactly the rows inside it (status
"Aligned", `time_range` recorded), while an empty one sets the alignment
status to "ERROR: no temporal overlap", appends the diagnostic, and returns
both tables untruncated. -/
theorem C6_prop (c p : Table) (s : Summary) :
    (max (idxMin c) (idxMin p) ≤ min (idxMax c) (idxMax p) →
      alignStep (some c) (some p) s =
        (some ⟨c.cols, c.rows.filter (fun r =>
            decide (max (idxMin c) (idxMin p) ≤ r.1 ∧ r.1 ≤ min (idxMax c) (idxMax p)))⟩,
         some ⟨p.cols, p.rows.filter (fun r =>
            decide (max (idxMin c) (idxMin p) ≤ r.1 ∧ r.1 ≤ min (idxMax c) (idxMax p)))⟩,
         { s with
            time_range := some (max (idxMin c) (idxMin p), min (idxMax c) (idxMax p)),
            alignment_status := "Aligned" })) ∧
    (min (idxMax c) (idxMax p) < max (idxMin c) (idxMin p) →
      alignStep (some c) (some p) s =
        (some c, some p,
         { s with
            alignment_status := "ERROR: no temporal overlap",
            errors := s.errors ++ ["Consumer and producer time ranges do not overlap"] })) := by
  constructor
  · intro h
    simp only [alignStep, truncateTable]
    rw [if_neg (not_lt.mpr h)]
  · intro h
    simp only [alignStep]
    rw [if_pos h]

/-- Claim **C6** (witness): a consumer table over minutes [0, 60] and a producer
table over [60, 120] intersect at the single timestamp 60; both outputs are
truncated to exactly that row and the range is recorded. -/
theorem C6_witness :
    alignStep (some ⟨["c1"], [(0, [some 1]), (60, [some 1])]⟩)
      (some ⟨["p1"], [(60, [some 2]), (120, [some 2])]⟩)
      ⟨1, 1, 1, 1, none, "OK", []⟩ =
      (some ⟨["c1"], [(60, [some 1])]⟩, some ⟨["p1"], [(60, [some 2])]⟩,
       ⟨1, 1, 1, 1, some (60, 60), "Aligned", []⟩) := by
  have h := (C6_prop ⟨["c1"], [(0, [some 1]), (60, [some 1])]⟩
    ⟨["p1"], [(60, [some 2]), (120, [some 2])]⟩ ⟨1, 1, 1, 1, none, "OK", []⟩).1
    (by decide)
  rw [h]
  simp [idxMin, idxMax]

/-! ## C10: hourly coercion of the merged tables uses mean and keeps NaN -/

/-- Claim **C10** (confirmed): the consolidated-table coercion to the hourly grid
aggregates each bin by the mean of the present samples (`sum / count`) and
leaves `none` (NaN) for an in-range hour with no samples — unlike the
Resampler's downsampling, which sums bins and fills empties with 0, as the
concrete contrast shows: the same three samples give `(0 ↦ 4, 60 ↦ NaN,
120 ↦ 7)` under the Aggregator's mean but `(0 ↦ 8, 60 ↦ 0, 120 ↦ 7)` under
the Resampler's sum. -/
theorem C10_prop :
    (∀ vals : List (Option ℚ),
      (vals.filterMap id ≠ [] →
        binMean vals = some ((vals.filterMap id).sum / (vals.filterMap id).length)) ∧
      (vals.filterMap id = [] → binMean vals = none)) ∧
    (buildConsolidated [("a", [(0, 3), (30, 5), (120, 7)])] =
      some ⟨["a"], [(0, [some 4]), (60, [none]), (120, [some 7])]⟩) ∧
    ((resample_curve [((0 : Int), (3 : ℚ)), (30, 5), (120, 7)] "PT60M").1 =
      [(0, 8), (60, 0), (120, 7)]) := by
  refine ⟨?_, ?_, ?_⟩
  · intro vals
    constructor
    · intro h
      simp only [binMean]
      rw [if_neg (by simpa [List.isEmpty_iff] using h)]
    · intro h
      simp [binMean, h]
  · have hr3 : List.range 3 = [0, 1, 2] := by decide
    have hr1 : List.range 1 = [0] := by decide
    have hmin : ((0 : Int) ⊓ 30 ⊓ 120) = 0 := by decide
    simp [buildConsolidated, mergedIndex, resampleHourlyMean, binMean, List.insertionSort,
      List.orderedInsert, List.dedup, List.lookup]
    rw [hr3]
    simp [hr1, hmin]
    norm_num
  · have hr3 : List.range 3 = [0, 1, 2] := by decide
    simp [resample_curve, detect_timestep, deltasOf, freqAlias, binMinutes, resampleSum,
      List.lookup]
    rw [hr3]
    simp
    norm_num

/-- Claim **C10** (witness): the mean rule instantiated at a concrete two-sample
bin: `binMean [some 3, some 5, none] = some 4`. -/
theorem C10_witness :
    binMean [some 3, some 5, (none : Option ℚ)] =
      some (([some 3, some 5, (none : Option ℚ)].filterMap id).sum /
        ([some 3, some 5, (none : Option ℚ)].filterMap id).length) :=
  (C10_prop.1 [some 3, some 5, none]).1 (by simp)

/-! ## C7: rejection propagation in the Aggregator -/

theorem collectLoop_append (role : String) (ts : List (String × List (Int × ℚ)))
    (n : Nat) (errs : List String) (l1 l2 : List Point) :
    collectLoop role ts n errs (l1 ++ l2) =
      collectLoop role (collectLoop role ts n errs l1).1
        (collectLoop role ts n errs l1).2.1 (collectLoop role ts n errs l1).2.2 l2 := by
  induction l1 generalizing ts n errs with
  | nil => rfl
  | cons p t ih =>
    cases h : pointOutcome role p with
    | inl o =>
      cases o with
      | some s =>
        simp only [List.cons_append, collectLoop, h]
        exact ih ..
      | none =>
        simp only [List.cons_append, collectLoop, h]
        exact ih ..
    | inr e =>
      simp only [List.cons_append, collectLoop, h]
      exact ih ..

theorem collectLoop_indep (role : String) (ts : List (String × List (Int × ℚ)))
    (n : Nat) (errs errs' : List String) (l : List Point) :
    (collectLoop role ts n errs l).1 = (collectLoop role ts n errs' l).1 ∧
    (collectLoop role ts n errs l).2.1 = (collectLoop role ts n errs' l).2.1 := by
  induction l generalizing ts n errs errs' with
  | nil => exact ⟨rfl, rfl⟩
  | cons p t ih =>
    cases h : pointOutcome role p with
    | inl o =>
      cases o with
      | some s =>
        simp only [collectLoop, h]
        exact ih ..
      | none =>
        simp only [collectLoop, h]
        exact ih ..
    | inr e =>
      simp only [collectLoop, h]
      exact ih ..

theorem collectLoop_count (role : String) (ts : List (String × List (Int × ℚ)))
    (n : Nat) (errs : List String) (l : List Point) :
    (collectLoop role ts n errs l).2.1 = n + (l.filter (includedPoint role)).length := by
  induction l generalizing ts n errs with
  | nil => simp [collectLoop]
  | cons p t ih =>
    cases h : pointOutcome role p with
    | inl o =>
      cases o with
      | some s =>
        simp only [collectLoop, h, List.filter_cons, includedPoint]
        rw [ih]
        simp [h]
        omega
      | none =>
        simp only [collectLoop, h, List.filter_cons, includedPoint]
        rw [ih]
        simp [h]
    | inr e =>
      simp only [collectLoop, h, List.filter_cons, includedPoint]
      rw [ih]
      simp [h]

theorem collectLoop_errors_mono (role : String) (ts : List (String × List (Int × ℚ)))
    (n : Nat) (errs : List String) (l : List Point) :
    ∃ e2, (collectLoop role ts n errs l).2.2 = errs ++ e2 := by
  induction l generalizing ts n errs with
  | nil => exact ⟨[], by simp [collectLoop]⟩
  | cons p t ih =>
    cases h : pointOutcome role p with
    | inl o =>
      cases o with
      | some s => simpa only [collectLoop, h] using ih ..
      | none => simpa only [collectLoop, h] using ih ..
    | inr e =>
      simp only [collectLoop, h]
      obtain ⟨e2, he⟩ := ih ts n (errs ++ [e])
      exact ⟨[e] ++ e2, by rw [he, List.append_assoc]⟩

theorem mem_upsert_keys (ts : List (String × List (Int × ℚ))) (k : String)
    (v : List (Int × ℚ)) (x : String) :
    x ∈ (upsert ts k v).map Prod.fst ↔ x = k ∨ x ∈ ts.map Prod.fst := by
  induction ts with
  | nil => simp [upsert]
  | cons q rest ih =>
    obtain ⟨k', v'⟩ := q
    by_cases h : k' = k
    · subst h
      simp [upsert]
    · simp only [upsert, if_neg h, List.map_cons, List.mem_cons, ih]
      tauto

theorem collectLoop_keys (role : String) (ts : List (String × List (Int × ℚ)))
    (n : Nat) (errs : List String) (l : List Point) (x : String)
    (hx : x ∈ (collectLoop role ts n errs l).1.map Prod.fst) :
    x ∈ ts.map Prod.fst ∨ ∃ p ∈ l, p.name = x ∧ includedPoint role p = true := by
  induction l generalizing ts n errs with
  | nil => exact Or.inl hx
  | cons p t ih =>
    cases h : pointOutcome role p with
    | inl o =>
      cases o with
      | some s =>
        rw [collectLoop, h] at hx
        rcases ih _ _ _ hx with hmem | ⟨q, hq, hqx⟩
        · rcases (mem_upsert_keys ts p.name s x).mp hmem with rfl | hts
          · exact Or.inr ⟨p, List.mem_cons_self .., rfl, by simp [includedPoint, h]⟩
          · exact Or.inl hts
        · exact Or.inr ⟨q, List.mem_cons_of_mem _ hq, hqx⟩
      | none =>
        rw [collectLoop, h] at hx
        rcases ih _ _ _ hx with hmem | ⟨q, hq, hqx⟩
        · exact Or.inl hmem
        · exact Or.inr ⟨q, List.mem_cons_of_mem _ hq, hqx⟩
    | inr e =>
      rw [collectLoop, h] at hx
      rcases ih _ _ _ hx with hmem | ⟨q, hq, hqx⟩
      · exact Or.inl hmem
      · exact Or.inr ⟨q, List.mem_cons_of_mem _ hq, hqx⟩

theorem resampleHourlyMean_cols (t : Table) : (resampleHourlyMean t).cols = t.cols := by
  unfold resampleHourlyMean
  split <;> rfl

theorem buildConsolidated_cols (ts : List (String × List (Int × ℚ))) (t : Table)
    (h : buildConsolidated ts = some t) : t.cols = ts.map Prod.fst := by
  unfold buildConsolidated at h
  by_cases he : ts.isEmpty
  · rw [if_pos he] at h
    cases h
  · rw [if_neg he] at h
    dsimp only at h
    split at h
    · cases h
    · cases h
      rw [resampleHourlyMean_cols]

theorem alignStep_counts (cdf pdf : Option Table) (s : Summary) :
    (alignStep cdf pdf s).2.2.consumers_count = s.consumers_count ∧
    (alignStep cdf pdf s).2.2.producers_count = s.producers_count ∧
    (alignStep cdf pdf s).2.2.consumers_with_data = s.consumers_with_data ∧
    (alignStep cdf pdf s).2.2.producers_with_data = s.producers_with_data := by
  cases cdf <;> cases pdf
  · simp [alignStep]
  · simp [alignStep]
  · simp [alignStep]
  · simp only [alignStep]
    split <;> simp

theorem alignStep_errors (cdf pdf : Option Table) (s : Summary) (e : String)
    (he : e ∈ s.errors) : e ∈ (alignStep cdf pdf s).2.2.errors := by
  cases cdf <;> cases pdf <;> simp only [alignStep]
  any_goals exact he
  split
  · exact List.mem_append_left _ he
  · exact he

theorem alignStep_fst_cols (cdf pdf : Option Table) (s : Summary) (t' : Table)
    (h : (alignStep cdf pdf s).1 = some t') :
    ∃ t0, cdf = some t0 ∧ t'.cols = t0.cols := by
  cases cdf with
  | none =>
    cases pdf <;> simp [alignStep] at h
  | some c =>
    refine ⟨c, rfl, ?_⟩
    cases pdf with
    | none =>
      simp only [alignStep] at h
      cases h
      rfl
    | some p =>
      simp only [alignStep] at h
      split at h <;> cases h <;> rfl

theorem alignStep_snd_cols (cdf pdf : Option Table) (s : Summary) (t' : Table)
    (h : (alignStep cdf pdf s).2.1 = some t') :
    ∃ t0, pdf = some t0 ∧ t'.cols = t0.cols := by
  cases pdf with
  | none =>
    cases cdf <;> simp [alignStep] at h
  | some p =>
    refine ⟨p, rfl, ?_⟩
    cases cdf with
    | none =>
      simp only [alignStep] at h
      cases h
      rfl
    | some c =>
      simp only [alignStep] at h
      split at h <;> cases h <;> rfl

theorem collect_skip_facts (role : String) (pre post : List Point) (nm : String)
    (dfr : List (Int × ℚ)) (hname : ∀ q ∈ pre ++ post, q.name ≠ nm) :
    (nm ∉ (collectPoints role
        (pre ++ ⟨nm, CurveData.bundle dfr (some true)⟩ :: post)).1.map Prod.fst) ∧
    ((role ++ " " ++ nm ++ ": REJECTED (no imputable values after plus or minus 4 weeks)")
      ∈ (collectPoints role (pre ++ ⟨nm, CurveData.bundle dfr (some true)⟩ :: post)).2.2) ∧
    ((collectPoints role (pre ++ ⟨nm, CurveData.bundle dfr (some true)⟩ :: post)).2.1
      = ((pre ++ post).filter (includedPoint role)).length) := by
  have houtx : pointOutcome role ⟨nm, CurveData.bundle dfr (some true)⟩ =
      Sum.inr (role ++ " " ++ nm ++
        ": REJECTED (no imputable values after plus or minus 4 weeks)") := rfl
  have hincx : includedPoint role ⟨nm, CurveData.bundle dfr (some true)⟩ = false := by
    simp [includedPoint, houtx]
  refine ⟨?_, ?_, ?_⟩
  · intro hmem
    rcases collectLoop_keys role [] 0 [] _ nm hmem with h0 | ⟨p, hp, hpn, hpi⟩
    · simp at h0
    · rcases List.mem_append.mp hp with hp1 | hp2
      · exact hname p (List.mem_append_left _ hp1) hpn
      · rcases List.mem_cons.mp hp2 with rfl | hp3
        · rw [hincx] at hpi
          cases hpi
        · exact hname p (List.mem_append_right _ hp3) hpn
  · rw [collectPoints, collectLoop_append]
    simp only [collectLoop, houtx]
    obtain ⟨e2, he2⟩ := collectLoop_errors_mono role
      (collectLoop role [] 0 [] pre).1 (collectLoop role [] 0 [] pre).2.1
      ((collectLoop role [] 0 [] pre).2.2 ++ [role ++ " " ++ nm ++
        ": REJECTED (no imputable values after plus or minus 4 weeks)"]) post
    rw [he2]
    simp
  · rw [collectPoints, collectLoop_append]
    simp only [collectLoop, houtx]
    rw [collectLoop_count]
    have hpre : (collectLoop role [] 0 [] pre).2.1
        = (pre.filter (includedPoint role)).length := by
      rw [collectLoop_count]
      omega
    rw [hpre, List.filter_append, List.length_append]

/-- Claim **C7** (confirmed): an actor (consumer or producer) whose curve bundle
carries an imputation report with `rejected = true` is skipped by the
collection loop: its name is not a column of the resulting consolidated
table, the "REJECTED" diagnostic is appended to the summary's error list, the
actor still counts in the per-role total (`*_count = len(points)`), and the
`*_with_data` counter only counts the successfully included points (the
rejected point is not one of them). -/
theorem C7_prop (pre post pointsP : List Point) (nm : String)
    (dfr : List (Int × ℚ))
    (hname : ∀ q ∈ pre ++ post, q.name ≠ nm) :
    ((∀ t, (build_dataframes (pre ++ ⟨nm, CurveData.bundle dfr (some true)⟩ :: post)
        pointsP).1 = some t → nm ∉ t.cols) ∧
     (("Consumer " ++ nm ++ ": REJECTED (no imputable values after plus or minus 4 weeks)")
       ∈ (build_dataframes (pre ++ ⟨nm, CurveData.bundle dfr (some true)⟩ :: post)
           pointsP).2.2.errors) ∧
     ((build_dataframes (pre ++ ⟨nm, CurveData.bundle dfr (some true)⟩ :: post)
         pointsP).2.2.consumers_count
       = (pre ++ ⟨nm, CurveData.bundle dfr (some true)⟩ :: post).length) ∧
     ((build_dataframes (pre ++ ⟨nm, CurveData.bundle dfr (some true)⟩ :: post)
         pointsP).2.2.consumers_with_data
       = ((pre ++ post).filter (includedPoint "Consumer")).length) ∧
     includedPoint "Consumer" ⟨nm, CurveData.bundle dfr (some true)⟩ = false) ∧
    ((∀ t, (build_dataframes pointsP
        (pre ++ ⟨nm, CurveData.bundle dfr (some true)⟩ :: post)).2.1 = some t →
        nm ∉ t.cols) ∧
     (("Producer " ++ nm ++ ": REJECTED (no imputable values after plus or minus 4 weeks)")
       ∈ (build_dataframes pointsP
           (pre ++ ⟨nm, CurveData.bundle dfr (some true)⟩ :: post)).2.2.errors) ∧
     ((build_dataframes pointsP
         (pre ++ ⟨nm, CurveData.bundle dfr (some true)⟩ :: post)).2.2.producers_count
       = (pre ++ ⟨nm, CurveData.bundle dfr (some true)⟩ :: post).length) ∧
     ((build_dataframes pointsP
         (pre ++ ⟨nm, CurveData.bundle dfr (some true)⟩ :: post)).2.2.producers_with_data
       = ((pre ++ post).filter (includedPoint "Producer")).length) ∧
     includedPoint "Producer" ⟨nm, CurveData.bundle dfr (some true)⟩ = false) := by
  obtain ⟨hkc, hec, hcc⟩ := collect_skip_facts "Consumer" pre post nm dfr hname
  obtain ⟨hkp, hep, hcp⟩ := collect_skip_facts "Producer" pre post nm dfr hname
  constructor
  · refine ⟨?_, ?_, ?_, ?_, rfl⟩
    · intro t ht
      obtain ⟨t0, ht0, hcols⟩ := alignStep_fst_cols _ _ _ _ ht
      have := buildConsolidated_cols _ _ ht0
      rw [hcols, this]
      exact hkc
    · exact alignStep_errors _ _ _ _
        (List.mem_append_left _ (List.mem_append_left _ (List.mem_append_left _ hec)))
    · exact (alignStep_counts _ _ _).1
    · exact ((alignStep_counts _ _ _).2.2.1).trans hcc
  · refine ⟨?_, ?_, ?_, ?_, rfl⟩
    · intro t ht
      obtain ⟨t0, ht0, hcols⟩ := alignStep_snd_cols _ _ _ _ ht
      have := buildConsolidated_cols _ _ ht0
      rw [hcols, this]
      exact hkp
    · exact alignStep_errors _ _ _ _
        (List.mem_append_left _ (List.mem_append_left _ (List.mem_append_right _ hep)))
    · exact (alignStep_counts _ _ _).2.1
    · exact ((alignStep_counts _ _ _).2.2.2).trans hcp

/-- Claim **C7** (witness): one accepted consumer "c1", one rejected consumer "r1"
(bundle with `rejected = true`), one producer "p1": the REJECTED diagnostic
is logged, `consumers_count = 2` while only "c1" counts as with-data. -/
theorem C7_witness :
    (("Consumer " ++ "r1" ++ ": REJECTED (no imputable values after plus or minus 4 weeks)")
      ∈ (build_dataframes [⟨"c1", CurveData.plain [(0, 1)]⟩,
          ⟨"r1", CurveData.bundle [(0, 2)] (some true)⟩]
          [⟨"p1", CurveData.plain [(0, 3)]⟩]).2.2.errors) ∧
    ((build_dataframes [⟨"c1", CurveData.plain [(0, 1)]⟩,
        ⟨"r1", CurveData.bundle [(0, 2)] (some true)⟩]
        [⟨"p1", CurveData.plain [(0, 3)]⟩]).2.2.consumers_count = 2) ∧
    ((build_dataframes [⟨"c1", CurveData.plain [(0, 1)]⟩,
        ⟨"r1", CurveData.bundle [(0, 2)] (some true)⟩]
        [⟨"p1", CurveData.plain [(0, 3)]⟩]).2.2.consumers_with_data
      = ((([⟨"c1", CurveData.plain [(0, 1)]⟩] : List Point) ++ []).filter
          (includedPoint "Consumer")).length) := by
  have h := (C7_prop [⟨"c1", CurveData.plain [(0, 1)]⟩] [] [⟨"p1", CurveData.plain [(0, 3)]⟩]
    "r1" [(0, 2)] (by decide)).1
  exact ⟨h.2.1, h.2.2.1, h.2.2.2.1⟩

/-! ## C4: resampling a curve already at the target frequency -/

theorem detect_timestep_cases (df : List (Int × ℚ)) :
    detect_timestep df = none ∨ detect_timestep df = some "15min" ∨
    detect_timestep df = some "30min" ∨ detect_timestep df = some "h" := by
  simp only [detect_timestep]
  split
  · exact Or.inl rfl
  · split
    · exact Or.inl rfl
    · split
      · unfold freqAlias
        split
        · exact Or.inr (Or.inl rfl)
        · split
          · exact Or.inr (Or.inr (Or.inl rfl))
          · split
            · exact Or.inr (Or.inr (Or.inr rfl))
            · exact Or.inl rfl
      · exact Or.inl rfl

theorem hourlyFrom_cons (t0 : Int) (v : ℚ) (rest : List ℚ) :
    hourlyFrom t0 (v :: rest) = (t0, v) :: hourlyFrom (t0 + 60) rest := rfl

theorem hourlyFrom_eq_range (vs : List ℚ) (m : Int) :
    hourlyFrom (60 * m) vs
      = (List.range vs.length).map (fun i : ℕ => (60 * (m + (i : Int)), vs.getD i 0)) := by
  induction vs generalizing m with
  | nil => rfl
  | cons v rest ih =>
    rw [hourlyFrom_cons, show (60 : Int) * m + 60 = 60 * (m + 1) by ring, ih (m + 1),
      List.length_cons, List.range_succ_eq_map, List.map_cons, List.map_map]
    congr 1
    · norm_num
    · refine List.map_congr_left ?_
      intro i _
      simp only [Function.comp_apply, List.getD_cons_succ, Nat.succ_eq_add_one,
        Prod.mk.injEq]
      push_cast
      exact ⟨by ring, trivial⟩

theorem hourlyFrom_map_fst (vs : List ℚ) (m : Int) :
    (hourlyFrom (60 * m) vs).map Prod.fst
      = (List.range vs.length).map (fun i : ℕ => 60 * (m + (i : Int))) := by
  rw [hourlyFrom_eq_range, List.map_map]
  rfl

theorem foldl_min_of_le (l : List Int) (a : Int) (h : ∀ x ∈ l, a ≤ x) :
    l.foldl min a = a := by
  induction l generalizing a with
  | nil => rfl
  | cons x t ih =>
    rw [List.foldl_cons, min_eq_left (h x (List.mem_cons_self ..))]
    exact ih a (fun y hy => h y (List.mem_cons_of_mem _ hy))

theorem foldl_max_ap (k : ℕ) (m : Int) :
    ((List.range k).map (fun i : ℕ => 60 * (m + 1 + (i : Int)))).foldl max (60 * m)
      = 60 * (m + (k : Int)) := by
  induction k generalizing m with
  | zero => simp
  | succ k ih =>
    rw [List.range_succ_eq_map, List.map_cons, List.foldl_cons, List.map_map]
    have h1 : max (60 * m) (60 * (m + 1 + ((0 : ℕ) : Int))) = 60 * (m + 1) := by
      push_cast
      rw [add_zero, max_eq_right (by linarith)]
    rw [h1, show ((List.range k).map ((fun i : ℕ => 60 * (m + 1 + (i : Int))) ∘ Nat.succ))
        = (List.range k).map (fun i : ℕ => 60 * (m + 1 + 1 + (i : Int))) from
      List.map_congr_left (by intro i _; simp only [Function.comp_apply]; push_cast; ring),
      ih (m + 1)]
    push_cast
    ring

theorem hourly_filter_lt (vs : List ℚ) (m k : Int) (hk : k < m) :
    (hourlyFrom (60 * m) vs).filter (fun p => decide (Int.fdiv p.1 60 = k)) = [] := by
  induction vs generalizing m with
  | nil => rfl
  | cons v rest ih =>
    rw [hourlyFrom_cons, List.filter_cons]
    have hf : Int.fdiv (60 * m) 60 = m := Int.mul_fdiv_cancel_left _ (by norm_num)
    simp only [hf, decide_eq_true_eq]
    rw [if_neg (by omega : ¬ (m = k)), show (60 : Int) * m + 60 = 60 * (m + 1) by ring]
    exact ih (m + 1) (by omega)

theorem hourly_filter_eq (vs : List ℚ) (m : Int) (i : ℕ) (hi : i < vs.length) :
    (hourlyFrom (60 * m) vs).filter (fun p => decide (Int.fdiv p.1 60 = m + (i : Int)))
      = [(60 * (m + (i : Int)), vs.getD i 0)] := by
  induction vs generalizing m i with
  | nil => simp at hi
  | cons v rest ih =>
    have hf : Int.fdiv (60 * m) 60 = m := Int.mul_fdiv_cancel_left _ (by norm_num)
    cases i with
    | zero =>
      rw [hourlyFrom_cons, List.filter_cons]
      simp only [hf, decide_eq_true_eq]
      rw [if_pos (by push_cast; ring), show (60 : Int) * m + 60 = 60 * (m + 1) by ring,
        show m + ((0 : ℕ) : Int) = m by push_cast; ring]
      rw [hourly_filter_lt rest (m + 1) m (by omega)]
      simp
    | succ j =>
      rw [hourlyFrom_cons, List.filter_cons]
      simp only [hf, decide_eq_true_eq]
      rw [if_neg (by push_cast; omega), show (60 : Int) * m + 60 = 60 * (m + 1) by ring,
        show m + ((j + 1 : ℕ) : Int) = (m + 1) + (j : Int) by push_cast; ring]
      rw [ih (m + 1) j (by simpa using hi)]
      simp

theorem resampleSum_hourlyFrom (vs : List ℚ) (m : Int) :
    resampleSum (hourlyFrom (60 * m) vs) 60 = hourlyFrom (60 * m) vs := by
  cases vs with
  | nil => rfl
  | cons v rest =>
    have hmap : (hourlyFrom (60 * m) (v :: rest)).map Prod.fst
        = 60 * m :: (List.range rest.length).map (fun i : ℕ => 60 * (m + 1 + (i : Int))) := by
      rw [hourlyFrom_map_fst, List.length_cons, List.range_succ_eq_map, List.map_cons,
        List.map_map]
      congr 1
      · norm_num
      · refine List.map_congr_left ?_
        intro i _
        simp only [Function.comp_apply]
        push_cast
        ring
    simp only [resampleSum]
    rw [hmap]
    simp only []
    rw [foldl_min_of_le _ _ (by
      intro x hx
      obtain ⟨i, _, rfl⟩ := List.mem_map.mp hx
      have : (0 : Int) ≤ (i : Int) := Int.natCast_nonneg i
      linarith)]
    rw [foldl_max_ap rest.length m]
    have hlo : Int.fdiv (60 * m) 60 = m := Int.mul_fdiv_cancel_left _ (by norm_num)
    have hhi : Int.fdiv (60 * (m + (rest.length : Int))) 60 = m + (rest.length : Int) :=
      Int.mul_fdiv_cancel_left _ (by norm_num)
    rw [hlo, hhi, show (m + (rest.length : Int) - m + 1).toNat = rest.length + 1 by omega]
    rw [hourlyFrom_eq_range (v :: rest) m, List.length_cons]
    refine List.map_congr_left ?_
    intro i hi
    have hfilter := hourly_filter_eq (v :: rest) m i (by simpa using List.mem_range.mp hi)
    rw [hourlyFrom_eq_range (v :: rest) m] at hfilter
    simp only [List.length_cons] at hfilter
    rw [hfilter]
    simp only [List.map_cons, List.map_nil, List.sum_cons, List.sum_nil, add_zero,
      Prod.mk.injEq]
    exact ⟨by ring, trivial⟩

/-- Claim **C4** (counterexample): an hourly curve whose samples sit at minute 30 of
each hour (detected frequency "h") is *not* returned unchanged by
`resample_curve` at the 60-minute target: its timestamps are moved to the
hour boundaries by the aggregate path. -/
theorem C4_counterexample :
    detect_timestep [((30 : Int), (1 : ℚ)), (90, 2), (150, 3)] = some "h" ∧
    (resample_curve [((30 : Int), (1 : ℚ)), (90, 2), (150, 3)] "PT60M").1
      ≠ [(30, 1), (90, 2), (150, 3)] := by
  constructor
  · decide
  · have he : (resample_curve [((30 : Int), (1 : ℚ)), (90, 2), (150, 3)] "PT60M").1
        = [(0, 1), (60, 2), (120, 3)] := by
      have hr3 : List.range 3 = [0, 1, 2] := by decide
      simp [resample_curve, detect_timestep, deltasOf, freqAlias, binMinutes, resampleSum,
        List.lookup]
      rw [hr3]
      simp
    rw [he]
    intro h
    simp at h

/-- Claim **C4** (amended): the no-op branch of `resample_curve` compares the
pandas-inferred frequency alias ("h", "30min", ...) with the ISO target token
("PT60M"), which never match, so an hourly curve is *not* returned by the
no-op branch; it goes through the aggregate path, which reproduces the series
exactly — timestamps and values — when (and only when) the samples are
hour-aligned and gap-free, as here for every curve `hourlyFrom (60*m) vs`. -/
theorem C4_prop (m : Int) (vs : List ℚ) :
    (resample_curve (hourlyFrom (60 * m) vs) "PT60M").1 = hourlyFrom (60 * m) vs ∧
    (resample_curve (hourlyFrom (60 * m) vs) "PT60M").2 = "Resampled (aggregate)" := by
  rcases detect_timestep_cases (hourlyFrom (60 * m) vs) with hd | hd | hd | hd <;>
    simp [resample_curve, hd, List.lookup, binMinutes, resampleSum_hourlyFrom]

end EasyACC
